import Mathlib

/-!
# Verification of the async port scanner (`src/scanner.py`)

Shallow embedding of the scanner's core: the well-known-port table
`COMMON_PORTS`, the per-target probe `PortScanner.scan_port`, the
coordinator methods `scan_host` / `scan_range`, the final sort performed
by `main`, and the port-specification parser `parse_ports`.

Modelling conventions:
* Network behaviour at a target is an explicit `ConnOutcome` parameter:
  the transport-level result of `asyncio.open_connection` under
  `asyncio.wait_for` (timeout / `ConnectionRefusedError` / other `OSError`,
  or an established connection), and, when established, the outcome of the
  banner read `reader.read(1024)` under its 0.5 s `wait_for`.
* `ReadOutcome.data s` carries the bytes the peer sent, already decoded the
  way `banner_data.decode('utf-8', errors='ignore')` decodes them; a peer
  that closes without sending anything makes `reader.read` return `b''`,
  i.e. `ReadOutcome.data ""`.  `readTimeout` is `asyncio.TimeoutError` from
  the inner `wait_for`, `readError` any other exception of the read — the
  inner `except (asyncio.TimeoutError, Exception)` catches both alike.
* The scanner object's mutable state (`self.results`, plus an instrumented
  count of connections this probe holds open) is threaded explicitly as
  `ScannerState`; `scan_port` returns its `Optional[ScanResult]` together
  with the updated state, appends happening in probe-completion order.
* Python's `str.strip`, `str.split` and `int` (on the plain decimal
  strings `parse_ports` receives) are re-implemented structurally on
  `List Char` so every definition evaluates inside the kernel.
-/

/-- Python `str.strip()` on the decoded banner: drop whitespace at both
ends (modelled on the character list of the string). -/
def pyStrip (s : String) : String :=
  ⟨((s.data.dropWhile Char.isWhitespace).reverse.dropWhile Char.isWhitespace).reverse⟩

/-- The static well-known-port table `COMMON_PORTS` of `scanner.py`,
as the association list the dict literal spells out. -/
def COMMON_PORTS_TABLE : List (Nat × String) :=
  [(21, "FTP"), (22, "SSH"), (23, "Telnet"), (25, "SMTP"), (53, "DNS"),
   (80, "HTTP"), (110, "POP3"), (143, "IMAP"), (443, "HTTPS"), (445, "SMB"),
   (993, "IMAPS"), (995, "POP3S"), (3306, "MySQL"), (3389, "RDP"),
   (5432, "PostgreSQL"), (6379, "Redis"), (8080, "HTTP-Alt"), (8443, "HTTPS-Alt"),
   (27017, "MongoDB"), (9200, "Elasticsearch")]

/-- `COMMON_PORTS.get(port)`: dictionary lookup returning `None` for an
absent key. -/
def COMMON_PORTS (port : Nat) : Option String :=
  (COMMON_PORTS_TABLE.find? (fun e => e.1 == port)).map (·.2)

/-- The `ScanResult` dataclass of `scanner.py`. -/
structure ScanResult where
  host : String
  port : Nat
  state : String
  service : Option String
  banner : Option String
deriving DecidableEq, Repr

/-- Outcome of the banner read `reader.read(1024)` under
`asyncio.wait_for(..., timeout=0.5)`.  `data s` is a completed read whose
bytes decode (with `errors='ignore'`) to `s`; a peer closing without
sending data yields `data ""` because `read` returns `b''` at EOF. -/
inductive ReadOutcome
  | data (s : String)
  | readTimeout
  | readError
deriving DecidableEq, Repr

/-- Outcome of `asyncio.wait_for(asyncio.open_connection(host, port),
timeout=self.timeout)`: the three transport-level failures the outer
`except (asyncio.TimeoutError, ConnectionRefusedError, OSError)` catches,
or an established connection together with its banner-read outcome. -/
inductive ConnOutcome
  | connTimeout
  | refused
  | osError
  | opened (read : ReadOutcome)
deriving DecidableEq, Repr

/-- The scanner's shared mutable state: `self.results`, plus an
instrumented count of TCP connections the probe currently holds open
(incremented when `open_connection` succeeds, decremented by
`writer.close()` / `wait_closed()`). -/
structure ScannerState where
  results : List ScanResult
  openConns : Nat
deriving DecidableEq, Repr

/-- Fresh scanner state as built by `PortScanner.__init__`. -/
def initState : ScannerState := ⟨[], 0⟩

/-- `PortScanner.scan_port(host, port)`, with the network's behaviour at
the target passed explicitly.  Transport failure: the outer `except`
returns `None`, state untouched.  Established connection: `banner = None`;
the inner `try` sets `banner = banner_data.decode('utf-8',
errors='ignore').strip()` on a completed read, while a read timeout or
error is swallowed by `except (asyncio.TimeoutError, Exception): pass`;
then `writer.close()` / `await writer.wait_closed()`, the
`COMMON_PORTS.get(port)` lookup, and `self.results.append(result)`. -/
def scan_port (beh : ConnOutcome) (host : String) (port : Nat)
    (st : ScannerState) : Option ScanResult × ScannerState :=
  match beh with
  | .connTimeout => (none, st)
  | .refused => (none, st)
  | .osError => (none, st)
  | .opened ro =>
    let st1 : ScannerState := { st with openConns := st.openConns + 1 }
    let banner : Option String :=
      match ro with
      | .data s => some (pyStrip s)
      | .readTimeout => none
      | .readError => none
    let st2 : ScannerState := { st1 with openConns := st1.openConns - 1 }
    let service := COMMON_PORTS port
    let result : ScanResult :=
      { host := host, port := port, state := "open",
        service := service, banner := banner }
    (some result, { st2 with results := st2.results ++ [result] })

/-- Running all probes of a scan: the coordinator awaits
`asyncio.gather(*tasks)`; each probe appends to `self.results` at the
moment it completes, so the shared state is folded over the targets in
probe-completion order `order` (an arbitrary permutation of the target
set). -/
def runProbes (beh : String → Nat → ConnOutcome)
    (order : List (String × Nat)) (st : ScannerState) : ScannerState :=
  order.foldl (fun s t => (scan_port (beh t.1 t.2) t.1 t.2 s).2) st

/-- `PortScanner.scan_host(host, ports)`: gather all probes of `host`,
then return `[r for r in self.results if r.host == host]`.  `order` is
the probe-completion order, a permutation of `[(host, p) for p in ports]`. -/
def scan_host (beh : String → Nat → ConnOutcome) (host : String)
    (_ports : List Nat) (order : List (String × Nat)) : List ScanResult :=
  (runProbes beh order initState).results.filter (fun r => r.host == host)

/-- `PortScanner.scan_range(cidr, ports)`: gather one probe per
(expanded host, port) pair, then return `self.results` wholesale.
`hosts` is the expansion `ipaddress.ip_network(cidr).hosts()` supplies;
`order` is the probe-completion order, a permutation of the cartesian
product of `hosts` and `ports`. -/
def scan_range (beh : String → Nat → ConnOutcome) (_hosts : List String)
    (_ports : List Nat) (order : List (String × Nat)) : List ScanResult :=
  (runProbes beh order initState).results

/-- The sort key `lambda r: (r.host, r.port)` of `main` (line 101),
under Python's lexicographic tuple comparison: host as the raw string,
port as an integer. -/
def keyLE (a b : ScanResult) : Prop :=
  a.host < b.host ∨ (a.host = b.host ∧ a.port ≤ b.port)

instance : DecidableRel keyLE := fun a b => by
  unfold keyLE; exact inferInstance

instance : IsTotal ScanResult keyLE where
  total a b := by
    rcases lt_trichotomy a.host b.host with h | h | h
    · exact Or.inl (Or.inl h)
    · rcases Nat.le_total a.port b.port with hp | hp
      · exact Or.inl (Or.inr ⟨h, hp⟩)
      · exact Or.inr (Or.inr ⟨h.symm, hp⟩)
    · exact Or.inr (Or.inl h)

instance : IsTrans ScanResult keyLE where
  trans a b c hab hbc := by
    rcases hab with hab | ⟨hab, hab'⟩
    · rcases hbc with hbc | ⟨hbc, _⟩
      · exact Or.inl (hab.trans hbc)
      · exact Or.inl (hbc ▸ hab)
    · rcases hbc with hbc | ⟨hbc, hbc'⟩
      · exact Or.inl (hab ▸ hbc)
      · exact Or.inr ⟨hab.trans hbc, hab'.trans hbc'⟩

/-- `results.sort(key=lambda r: (r.host, r.port))` in `main` (line 101).
Python's `list.sort` is a stable sort by the key; a stable sort's output
is determined by the key order alone, so it is modelled by insertion
sort, which is also stable. -/
def mainSort (l : List ScanResult) : List ScanResult :=
  List.insertionSort keyLE l

/-- The result list is sorted ascending by `(host, port)`. -/
def sortedByKey (l : List ScanResult) : Prop := l.Pairwise keyLE

instance : DecidablePred sortedByKey := fun l => by
  unfold sortedByKey; exact inferInstance

/-- Python `int(s)` restricted to the plain decimal-digit strings a port
specification carries: the numeric value when every character is a digit
(and the string is nonempty), failure (`ValueError`) otherwise. -/
def digitsToNat? (cs : List Char) : Option Nat :=
  match cs with
  | [] => none
  | _ =>
    if cs.all Char.isDigit then
      some (cs.foldl (fun n c => n * 10 + (c.toNat - 48)) 0)
    else none

/-- Python `int(part)` on a port-spec segment. -/
def pyInt? (s : String) : Option Nat := digitsToNat? s.data

/-- Python `str.split(sep)` for a single-character separator (always
returns at least one piece; adjacent separators yield empty pieces). -/
def splitChar (sep : Char) : List Char → List (List Char)
  | [] => [[]]
  | c :: cs =>
    if c = sep then [] :: splitChar sep cs
    else
      match splitChar sep cs with
      | [] => [[c]]
      | p :: ps => (c :: p) :: ps

/-- `part.split(sep)` on strings. -/
def pySplit (sep : Char) (s : String) : List String :=
  (splitChar sep s.data).map fun cs => ⟨cs⟩

/-- One iteration of the `parse_ports` loop on a comma-segment `part`:
if `'-' in part`, unpack `start, end = part.split('-')` (a `ValueError`
if the split does not give exactly two pieces) and extend with
`range(int(start), int(end) + 1)`; otherwise append `int(part)`.
Returns the ports the segment contributes, or failure on a `ValueError`. -/
def segPorts (part : String) : Option (List Nat) :=
  if part.data.contains '-' then
    match pySplit '-' part with
    | [a, b] => do
      let s ← pyInt? a
      let e ← pyInt? b
      pure (List.range' s (e + 1 - s))
    | _ => none
  else (pyInt? part).map (fun n => [n])

/-- `sorted(set(ports))`: the ascending duplicate-free enumeration. -/
def sortedSet (l : List Nat) : List Nat :=
  List.insertionSort (· ≤ ·) l.dedup

/-- The `for part in port_str.split(','):` loop of `parse_ports`: the
`ports` accumulator grows with each segment's contribution
(`ports.extend(...)` / `ports.append(...)`); an uncaught `ValueError`
aborts the whole call. -/
def collectPorts : List String → Option (List Nat)
  | [] => some []
  | part :: parts => do
    let ps ← segPorts part
    let rest ← collectPorts parts
    pure (ps ++ rest)

/-- `parse_ports(port_str)`: split on `','`, accumulate every segment's
ports, return `sorted(set(ports))`; `none` models an uncaught
`ValueError`. -/
def parse_ports (port_str : String) : Option (List Nat) :=
  (collectPorts (pySplit ',' port_str)).map sortedSet

/-- The pure outcome of one probe: the `Optional[ScanResult]` value
`scan_port` returns, which depends only on the network behaviour and the
target, not on the shared state. -/
def probeResult (beh : ConnOutcome) (host : String) (port : Nat) :
    Option ScanResult :=
  (scan_port beh host port initState).1

/-- The contents of `self.results` after one full run from a fresh
`PortScanner` over completion order `order`. -/
def scanRun (beh : String → Nat → ConnOutcome)
    (order : List (String × Nat)) : List ScanResult :=
  (runProbes beh order initState).results

/-!
## The admission gate (`asyncio.Semaphore(concurrency)`)

`PortScanner.__init__` creates `self.semaphore = asyncio.Semaphore(concurrency)`
and the whole body of `scan_port` runs inside `async with self.semaphore:`.
The gate is modelled as a transition system over the phases of the `n`
probe tasks: a probe is `waiting` before it enters the `async with`
(blocked until a slot is free), `holding` while its connection attempt
and banner read are in flight, and `finished` once the `async with`
exits — which it does on every exit path of the body (`return result`
and the `except ...: return None` alike), releasing the slot. -/

/-- The phase of one probe task relative to the admission gate. -/
inductive ProbePhase
  | waiting
  | holding
  | finished
deriving DecidableEq, Repr

/-- The number of probes currently holding a semaphore slot, i.e. with an
in-flight connection attempt. -/
def holders (ps : List ProbePhase) : Nat :=
  ps.countP (· == ProbePhase.holding)

/-- One scheduler step of the gate with capacity `C`
(`asyncio.Semaphore(C)`): a waiting probe may enter the `async with`
only while fewer than `C` probes hold a slot; a holding probe leaves the
`async with` (on either exit path) and releases its slot. -/
inductive GateStep (C : Nat) : List ProbePhase → List ProbePhase → Prop
  | acquire (ps : List ProbePhase) (i : Nat)
      (hi : ps[i]? = some ProbePhase.waiting) (hfree : holders ps < C) :
      GateStep C ps (ps.set i ProbePhase.holding)
  | release (ps : List ProbePhase) (i : Nat)
      (hi : ps[i]? = some ProbePhase.holding) :
      GateStep C ps (ps.set i ProbePhase.finished)

/-- The states reachable by a scan of `n` targets under capacity `C`:
all probes start waiting at the gate, then scheduler steps interleave
arbitrarily. -/
inductive GateReach (C n : Nat) : List ProbePhase → Prop
  | init : GateReach C n (List.replicate n ProbePhase.waiting)
  | step {s t : List ProbePhase} :
      GateReach C n s → GateStep C s t → GateReach C n t

/-! ## Helper lemmas about the probe and the run -/

/-- The `Optional[ScanResult]` a probe returns does not depend on the
shared scanner state. -/
theorem scan_port_fst (b : ConnOutcome) (h : String) (p : Nat)
    (st : ScannerState) : (scan_port b h p st).1 = probeResult b h p := by
  cases b with
  | opened ro => cases ro <;> rfl
  | _ => rfl

/-- A probe appends its result (if any) to `self.results` and changes
nothing else of the collection. -/
theorem scan_port_results (b : ConnOutcome) (h : String) (p : Nat)
    (st : ScannerState) :
    (scan_port b h p st).2.results =
      st.results ++ (probeResult b h p).toList := by
  cases b with
  | opened ro => cases ro <;> simp [scan_port, probeResult, initState]
  | _ => simp [scan_port, probeResult, initState]

/-- A produced result carries the probed host and port, state `open`,
the table lookup as service. -/
theorem probeResult_fields (b : ConnOutcome) (h : String) (p : Nat)
    (r : ScanResult) (hr : probeResult b h p = some r) :
    r.host = h ∧ r.port = p ∧ r.state = "open" ∧
      r.service = COMMON_PORTS p := by
  cases b with
  | opened ro =>
    cases ro <;> simp [probeResult, scan_port, initState] at hr <;>
      simp [← hr]
  | connTimeout => simp [probeResult, scan_port] at hr
  | refused => simp [probeResult, scan_port] at hr
  | osError => simp [probeResult, scan_port] at hr

/-- `self.results` after a run: the initial contents followed by the
per-probe results in completion order. -/
theorem runProbes_results (beh : String → Nat → ConnOutcome) :
    ∀ (order : List (String × Nat)) (st : ScannerState),
    (runProbes beh order st).results =
      st.results ++
        order.filterMap (fun t => probeResult (beh t.1 t.2) t.1 t.2)
  | [], st => by simp [runProbes]
  | t :: ts, st => by
    have hrec := runProbes_results beh ts ((scan_port (beh t.1 t.2) t.1 t.2 st).2)
    simp only [runProbes, List.foldl_cons] at hrec ⊢
    rw [hrec, scan_port_results, List.filterMap_cons]
    cases probeResult (beh t.1 t.2) t.1 t.2 <;> simp

-- Sanity checks (concrete evaluations of the embedding).
example : parse_ports "80,100-90,22" = some [22, 80] := by decide
example : parse_ports "21-25" = some [21, 22, 23, 24, 25] := by decide
example : COMMON_PORTS 22 = some "SSH" := by decide
example :
    scan_port (.opened (.data "")) "h" 8080 initState =
      (some ⟨"h", 8080, "open", some "HTTP-Alt", some ""⟩,
       ⟨[⟨"h", 8080, "open", some "HTTP-Alt", some ""⟩], 0⟩) := by decide
example :
    scan_host (fun _ _ => .opened .readTimeout) "h" [22, 80]
      [("h", 80), ("h", 22)] =
      [⟨"h", 80, "open", some "HTTP", none⟩,
       ⟨"h", 22, "open", some "SSH", none⟩] := by decide

/-! ## C2 — open connection, peer closes without data -/

/-- C2 counterexample: a peer that accepts and closes without sending
data makes `reader.read` return `b''`, so the probe's result carries the
banner value `'' ` (present, empty) — not an absent banner. -/
theorem C2_counterexample :
    (scan_port (ConnOutcome.opened (ReadOutcome.data "")) "127.0.0.1" 8080
        initState).1 =
      some ⟨"127.0.0.1", 8080, "open", some "HTTP-Alt", some ""⟩ ∧
    (some "" : Option String) ≠ none := by
  constructor
  · decide
  · decide

/-- C2 amended: for every (host, port) whose peer accepts the connection
and closes it without sending data, the probe yields exactly one
ScanResult, with state `open` and the banner present but equal to the
empty string (which the renderer displays like an absent banner). -/
theorem C2_open_close_no_data (host : String) (port : Nat)
    (st : ScannerState) :
    scan_port (ConnOutcome.opened (ReadOutcome.data "")) host port st =
      (some ⟨host, port, "open", COMMON_PORTS port, some ""⟩,
       { st with results :=
          st.results ++ [⟨host, port, "open", COMMON_PORTS port, some ""⟩] }) := by
  simp [scan_port, pyStrip]

/-! ## C3 — transport-level failure is contained -/

/-- C3: a connection attempt that times out, is refused, or fails with
any other `OSError` makes the probe return `None` (the `except` clause,
no exception escapes), leaves `self.results` untouched, and a run
containing such a probe equals the run without it — sibling probes are
unaffected. -/
theorem C3_transport_failure_contained (b : ConnOutcome)
    (hb : b = ConnOutcome.connTimeout ∨ b = ConnOutcome.refused ∨
      b = ConnOutcome.osError)
    (host : String) (port : Nat) (st : ScannerState) :
    scan_port b host port st = (none, st) ∧
    ∀ (beh : String → Nat → ConnOutcome) (pre post : List (String × Nat))
      (t : String × Nat), beh t.1 t.2 = b →
      runProbes beh (pre ++ t :: post) st = runProbes beh (pre ++ post) st := by
  have hnone : ∀ (h' : String) (p' : Nat) (s' : ScannerState),
      scan_port b h' p' s' = (none, s') := by
    rcases hb with h | h | h <;> subst h <;> intros <;> rfl
  refine ⟨hnone host port st, ?_⟩
  intro beh pre post t ht
  simp only [runProbes, List.foldl_append, List.foldl_cons, ht, hnone]

theorem C3_transport_failure_contained_witness :
    scan_port ConnOutcome.refused "127.0.0.1" 22 initState =
      (none, initState) ∧
    runProbes (fun _ _ => ConnOutcome.refused)
        ([] ++ ("127.0.0.1", 22) :: []) initState =
      runProbes (fun _ _ => ConnOutcome.refused) ([] ++ []) initState :=
  ⟨(C3_transport_failure_contained ConnOutcome.refused (Or.inr (Or.inl rfl))
      "127.0.0.1" 22 initState).1,
   (C3_transport_failure_contained ConnOutcome.refused (Or.inr (Or.inl rfl))
      "127.0.0.1" 22 initState).2 (fun _ _ => ConnOutcome.refused) [] []
      ("127.0.0.1", 22) rfl⟩

/-! ## C4 — banner-read failure still yields an open result -/

/-- C4: if the connection succeeds and the banner read times out or
raises, the inner `except ...: pass` swallows it; the probe still appends
and returns exactly one ScanResult with state `open` and banner `None`. -/
theorem C4_banner_failure_still_open (ro : ReadOutcome)
    (hro : ro = ReadOutcome.readTimeout ∨ ro = ReadOutcome.readError)
    (host : String) (port : Nat) (st : ScannerState) :
    scan_port (ConnOutcome.opened ro) host port st =
      (some ⟨host, port, "open", COMMON_PORTS port, none⟩,
       { st with results :=
          st.results ++ [⟨host, port, "open", COMMON_PORTS port, none⟩] }) := by
  rcases hro with h | h <;> subst h <;> simp [scan_port]

theorem C4_banner_failure_still_open_witness :
    scan_port (ConnOutcome.opened ReadOutcome.readTimeout) "127.0.0.1" 22
        initState =
      (some ⟨"127.0.0.1", 22, "open", COMMON_PORTS 22, none⟩,
       { initState with results :=
          initState.results ++ [⟨"127.0.0.1", 22, "open", COMMON_PORTS 22, none⟩] }) :=
  C4_banner_failure_still_open ReadOutcome.readTimeout (Or.inl rfl)
    "127.0.0.1" 22 initState

/-! ## C5 — service lookup from the static table -/

/-- C5: every produced ScanResult has `service = COMMON_PORTS.get(port)`
for its own port; every one of the 20 pairs the dict literal lists (and
the spec repeats) looks up to its service name, and any port outside the
table (54321 among them) looks up to an absent service. -/
theorem C5_service_lookup :
    (∀ (b : ConnOutcome) (host : String) (port : Nat) (st : ScannerState)
        (r : ScanResult), (scan_port b host port st).1 = some r →
        r.service = COMMON_PORTS r.port) ∧
    (∀ e ∈ COMMON_PORTS_TABLE, COMMON_PORTS e.1 = some e.2) ∧
    COMMON_PORTS 22 = some "SSH" ∧ COMMON_PORTS 54321 = none ∧
    (∀ p : Nat, p ∉ COMMON_PORTS_TABLE.map Prod.fst →
      COMMON_PORTS p = none) := by
  refine ⟨?_, by decide, by decide, by decide, ?_⟩
  · intro b host port st r hr
    rw [scan_port_fst] at hr
    obtain ⟨-, hp, -, hs⟩ := probeResult_fields b host port r hr
    rw [hs, hp]
  · intro p hp
    have hfind : COMMON_PORTS_TABLE.find? (fun e => e.1 == p) = none := by
      rw [List.find?_eq_none]
      intro e he hbeq
      have hkey : e.1 ∈ COMMON_PORTS_TABLE.map Prod.fst :=
        List.mem_map_of_mem Prod.fst he
      rw [beq_iff_eq.mp hbeq] at hkey
      exact hp hkey
    simp [COMMON_PORTS, hfind]

theorem C5_service_lookup_witness :
    (⟨"127.0.0.1", 22, "open", some "SSH", some "SSH-2.0"⟩ : ScanResult).service =
      COMMON_PORTS
        (⟨"127.0.0.1", 22, "open", some "SSH", some "SSH-2.0"⟩ : ScanResult).port ∧
    COMMON_PORTS 54321 = none :=
  ⟨C5_service_lookup.1 (ConnOutcome.opened (ReadOutcome.data "SSH-2.0\r\n"))
      "127.0.0.1" 22 initState _ (by decide),
   C5_service_lookup.2.2.2.1⟩

/-! ## C9 — the connection is closed on every path -/

/-- C9: whatever the outcome, the probe never leaks an opened
connection: the count of connections it holds open is the same before
and after `scan_port` on every code path (failure paths never opened
one; all three read outcomes pass through `writer.close()` /
`wait_closed()` before the probe returns). -/
theorem C9_no_socket_leak (b : ConnOutcome) (host : String) (port : Nat)
    (st : ScannerState) :
    (scan_port b host port st).2.openConns = st.openConns := by
  cases b with
  | opened ro => cases ro <;> simp [scan_port]
  | _ => rfl

/-! ## C1 — ordering of the coordinator's return value -/

/-- C1 counterexample: host "h", ports [22, 80], both open, with the
port-80 probe completing first.  `scan_host` returns `self.results`
(filtered by host) in completion order — [(h,80), (h,22)] — which is not
sorted ascending by (host, port), even though the completion order is a
permutation of the target set. -/
theorem C1_counterexample :
    ([("h", 80), ("h", 22)] : List (String × Nat)).Perm
      (([22, 80] : List Nat).map (fun p => ("h", p))) ∧
    ¬ sortedByKey
        (scan_host (fun _ _ => ConnOutcome.opened ReadOutcome.readTimeout)
          "h" [22, 80] [("h", 80), ("h", 22)]) := by
  constructor
  · decide
  · have heval : scan_host (fun _ _ => ConnOutcome.opened ReadOutcome.readTimeout)
        "h" [22, 80] [("h", 80), ("h", 22)] =
        [⟨"h", 80, "open", some "HTTP", none⟩,
         ⟨"h", 22, "open", some "SSH", none⟩] := by decide
    intro hs
    unfold sortedByKey at hs
    rw [heval] at hs
    rcases List.pairwise_cons.mp hs with ⟨hrel, -⟩
    rcases hrel _ (List.mem_cons_self _ _) with h | ⟨-, h⟩
    · exact lt_irrefl _ h
    · simp only [ScanResult.port] at h
      omega

/-- C1 amended: `scan_host` / `scan_range` return the results in probe
completion order, unsorted; it is `main` (line 101,
`results.sort(key=lambda r: (r.host, r.port))`) that sorts the returned
list, and for every behaviour, target set and completion order the list
`main` goes on to render is sorted ascending by (host, port), host
compared as the raw string and port as an integer. -/
theorem C1_main_sorts_results (beh : String → Nat → ConnOutcome)
    (host : String) (hosts : List String) (ports : List Nat)
    (order : List (String × Nat)) :
    sortedByKey (mainSort (scan_host beh host ports order)) ∧
    sortedByKey (mainSort (scan_range beh hosts ports order)) :=
  ⟨List.sorted_insertionSort keyLE _, List.sorted_insertionSort keyLE _⟩

/-! ## C7 — two runs over the same targets are set-equal -/

/-- C7: two fresh runs over the same static target set against the same
fixed servers (same behaviour function, any two completion orders that
are permutations of each other) produce result lists containing exactly
the same ScanResults. -/
theorem C7_runs_set_equal (beh : String → Nat → ConnOutcome)
    (o1 o2 : List (String × Nat)) (hperm : o1.Perm o2) :
    ∀ r : ScanResult, r ∈ scanRun beh o1 ↔ r ∈ scanRun beh o2 := by
  intro r
  unfold scanRun
  rw [runProbes_results, runProbes_results]
  simp only [initState, List.nil_append]
  exact (hperm.filterMap _).mem_iff

theorem C7_runs_set_equal_witness :
    ([("h", 22), ("h", 80)] : List (String × Nat)).Perm
      [("h", 80), ("h", 22)] ∧
    ((⟨"h", 22, "open", some "SSH", none⟩ : ScanResult) ∈
        scanRun (fun _ _ => ConnOutcome.opened ReadOutcome.readTimeout)
          [("h", 22), ("h", 80)] ↔
      (⟨"h", 22, "open", some "SSH", none⟩ : ScanResult) ∈
        scanRun (fun _ _ => ConnOutcome.opened ReadOutcome.readTimeout)
          [("h", 80), ("h", 22)]) :=
  ⟨by decide,
   C7_runs_set_equal (fun _ _ => ConnOutcome.opened ReadOutcome.readTimeout)
     [("h", 22), ("h", 80)] [("h", 80), ("h", 22)] (by decide)
     ⟨"h", 22, "open", some "SSH", none⟩⟩

/-! ## C8 — at most one result per target, all of them open -/

/-- If a target key never occurs in the remaining completion order, no
result produced by it carries that key. -/
theorem countP_key_zero (beh : String → Nat → ConnOutcome) (t0 : String × Nat) :
    ∀ order : List (String × Nat), t0 ∉ order →
    ((order.filterMap fun t => probeResult (beh t.1 t.2) t.1 t.2).countP
      fun r => (r.host, r.port) == t0) = 0
  | [], _ => rfl
  | t :: ts, hmem => by
    have hne : t ≠ t0 := fun h => hmem (h ▸ List.mem_cons_self t ts)
    have hts : t0 ∉ ts := fun h => hmem (List.mem_cons_of_mem _ h)
    rw [List.filterMap_cons]
    cases hpr : probeResult (beh t.1 t.2) t.1 t.2 with
    | none => exact countP_key_zero beh t0 ts hts
    | some r =>
      obtain ⟨hh, hp, -, -⟩ := probeResult_fields _ _ _ _ hpr
      rw [List.countP_cons, countP_key_zero beh t0 ts hts]
      have hkf : ((r.host, r.port) == t0) = false := by
        rw [beq_eq_false_iff_ne]
        intro hkey
        exact hne (by rw [← hkey, hh, hp])
      simp [hkf]

/-- Over a duplicate-free completion order, at most one result carries
any given (host, port) key. -/
theorem countP_key_le_one (beh : String → Nat → ConnOutcome) (t0 : String × Nat) :
    ∀ order : List (String × Nat), order.Nodup →
    ((order.filterMap fun t => probeResult (beh t.1 t.2) t.1 t.2).countP
      fun r => (r.host, r.port) == t0) ≤ 1
  | [], _ => by simp
  | t :: ts, hnd => by
    obtain ⟨hmem, hnd'⟩ := List.nodup_cons.mp hnd
    rw [List.filterMap_cons]
    cases hpr : probeResult (beh t.1 t.2) t.1 t.2 with
    | none => exact countP_key_le_one beh t0 ts hnd'
    | some r =>
      rw [List.countP_cons]
      by_cases hk : ((r.host, r.port) == t0) = true
      · obtain ⟨hh, hp, -, -⟩ := probeResult_fields _ _ _ _ hpr
        have ht0 : t0 = t := by
          rw [← beq_iff_eq.mp hk, hh, hp]
        rw [countP_key_zero beh t0 ts (ht0 ▸ hmem), hk]
        simp
      · rw [Bool.not_eq_true] at hk
        rw [hk]
        simpa using countP_key_le_one beh t0 ts hnd'

/-- C8: over a duplicate-free target set (`parse_ports` deduplicates the
ports, the expander never pairs one host twice with the same port), a run
leaves at most one ScanResult per ScanTarget in `self.results`, every one
of them with state `open`; probes that do not reach the open
determination contribute nothing. -/
theorem C8_result_collection_invariant (beh : String → Nat → ConnOutcome)
    (order : List (String × Nat)) (hnd : order.Nodup) :
    (∀ r ∈ scanRun beh order, r.state = "open") ∧
    ∀ t : String × Nat,
      ((scanRun beh order).countP fun r => (r.host, r.port) == t) ≤ 1 := by
  constructor
  · intro r hr
    unfold scanRun at hr
    rw [runProbes_results] at hr
    simp only [initState, List.nil_append] at hr
    obtain ⟨t, -, hpr⟩ := List.mem_filterMap.mp hr
    exact (probeResult_fields _ _ _ _ hpr).2.2.1
  · intro t
    unfold scanRun
    rw [runProbes_results]
    simp only [initState, List.nil_append]
    exact countP_key_le_one beh t order hnd

theorem C8_result_collection_invariant_witness :
    ((scanRun (fun _ _ => ConnOutcome.opened ReadOutcome.readTimeout)
        [("h", 22), ("h", 80)]).countP
      fun r => (r.host, r.port) == ("h", 22)) ≤ 1 :=
  (C8_result_collection_invariant
      (fun _ _ => ConnOutcome.opened ReadOutcome.readTimeout)
      [("h", 22), ("h", 80)] (by decide)).2 ("h", 22)

/-! ## C6 — the admission gate bounds in-flight probes -/

/-- Setting one position of the phase list changes the holder count by
the difference the old and new phases contribute. -/
theorem holders_set (ps : List ProbePhase) (i : Nat) (a b : ProbePhase)
    (h : ps[i]? = some a) :
    holders (ps.set i b) + (if a == ProbePhase.holding then 1 else 0) =
      holders ps + (if b == ProbePhase.holding then 1 else 0) := by
  induction ps generalizing i with
  | nil => simp at h
  | cons x xs ih =>
    cases i with
    | zero =>
      simp only [List.getElem?_cons_zero, Option.some.injEq] at h
      subst h
      simp only [List.set_cons_zero, holders, List.countP_cons]
      omega
    | succ j =>
      simp only [List.getElem?_cons_succ] at h
      have hj := ih j h
      simp only [List.set_cons_succ, holders, List.countP_cons] at hj ⊢
      omega

/-- At the start of a run no probe holds a slot. -/
theorem holders_replicate (n : Nat) :
    holders (List.replicate n ProbePhase.waiting) = 0 := by
  induction n with
  | zero => rfl
  | succ m ih =>
    simp only [List.replicate_succ, holders, List.countP_cons] at ih ⊢
    simp [ih]

/-- C6: for a scan of `n` targets under concurrency ceiling `C < n`, in
every state the gate transition system can reach, at most `C` probes hold
a semaphore slot — i.e. have an in-flight connection attempt — at once;
a holding probe's only exit is the release transition, mirroring the
`async with` releasing the slot on every exit path of `scan_port`. -/
theorem C6_concurrency_bound (C n : Nat) (_hCn : C < n)
    (s : List ProbePhase) (hreach : GateReach C n s) : holders s ≤ C := by
  induction hreach with
  | init => simp [holders_replicate]
  | @step u v _ hstep ih =>
    cases hstep with
    | acquire i hi hfree =>
      have hs := holders_set u i ProbePhase.waiting ProbePhase.holding hi
      simp at hs
      omega
    | release i hi =>
      have hs := holders_set u i ProbePhase.holding ProbePhase.finished hi
      simp at hs
      omega

theorem C6_concurrency_bound_witness :
    holders [ProbePhase.holding, ProbePhase.waiting] ≤ 1 :=
  C6_concurrency_bound 1 2 (by decide) _
    (GateReach.step GateReach.init
      (GateStep.acquire [ProbePhase.waiting, ProbePhase.waiting] 0
        (by decide) (by decide)))

/-! ## C10 — descending ranges in the port specification -/

/-- The accumulation loop of `parse_ports` over a concatenation of
segment lists. -/
theorem collectPorts_append : ∀ l1 l2 : List String,
    collectPorts (l1 ++ l2) = do
      let a ← collectPorts l1
      let b ← collectPorts l2
      pure (a ++ b)
  | [], l2 => by
    cases hc : collectPorts l2 <;> simp [collectPorts, hc]
  | part :: parts, l2 => by
    cases hs : segPorts part with
    | none => simp [collectPorts, hs]
    | some ps =>
      cases hp : collectPorts parts with
      | none =>
        have ih := collectPorts_append parts l2
        rw [hp] at ih
        simp at ih
        simp [collectPorts, hs, hp, ih]
      | some as =>
        cases hl : collectPorts l2 with
        | none =>
          have ih := collectPorts_append parts l2
          rw [hp, hl] at ih
          simp at ih
          simp [collectPorts, hs, hp, hl, ih]
        | some bs =>
          have ih := collectPorts_append parts l2
          rw [hp, hl] at ih
          simp at ih
          simp [collectPorts, hs, hp, hl, ih]

/-- `sorted(set(...))` really is sorted and duplicate-free. -/
theorem sortedSet_sorted_nodup (l : List Nat) :
    (sortedSet l).Pairwise (· ≤ ·) ∧ (sortedSet l).Nodup := by
  constructor
  · exact List.sorted_insertionSort (· ≤ ·) l.dedup
  · exact ((List.perm_insertionSort (· ≤ ·) l.dedup).nodup_iff).mpr
      l.nodup_dedup

/-- A descending range segment `a-b` (`int(a) > int(b)`) makes
`range(int(a), int(b) + 1)` empty: the segment contributes no ports and
raises nothing. -/
theorem segPorts_descending (d a b : String) (x y : Nat)
    (hdash : d.data.contains '-' = true) (hd : pySplit '-' d = [a, b])
    (ha : pyInt? a = some x) (hb : pyInt? b = some y) (hlt : y < x) :
    segPorts d = some [] := by
  have h0 : y + 1 - x = 0 := by omega
  have hmem : '-' ∈ d.data := by simpa using hdash
  simp [segPorts, hd, ha, hb, h0, hmem]

/-- C10: a port specification containing a descending range segment
`a-b` with `int(a) > int(b)` silently contributes no ports for that
segment — `parse_ports` behaves as if the segment were absent, raising
nothing — and any list it returns is sorted ascending and
duplicate-free. -/
theorem C10_descending_range_ignored (s d a b : String) (x y : Nat)
    (pre post : List String)
    (hsplit : pySplit ',' s = pre ++ d :: post)
    (hdash : d.data.contains '-' = true) (hd : pySplit '-' d = [a, b])
    (ha : pyInt? a = some x) (hb : pyInt? b = some y) (hlt : y < x) :
    segPorts d = some [] ∧
    parse_ports s = (collectPorts (pre ++ post)).map sortedSet ∧
    ∀ l : List Nat, parse_ports s = some l →
      l.Pairwise (· ≤ ·) ∧ l.Nodup := by
  have hseg := segPorts_descending d a b x y hdash hd ha hb hlt
  refine ⟨hseg, ?_, ?_⟩
  · unfold parse_ports
    rw [hsplit, collectPorts_append, collectPorts_append]
    simp only [collectPorts, hseg, Option.bind_some]
    cases hp : collectPorts pre with
    | none => simp
    | some as =>
      cases hq : collectPorts post <;> simp [hq]
  · intro l hl
    unfold parse_ports at hl
    cases hcp : collectPorts (pySplit ',' s) with
    | none =>
      rw [hcp] at hl
      exact absurd hl (by simp)
    | some ps =>
      rw [hcp] at hl
      simp at hl
      subst hl
      exact sortedSet_sorted_nodup ps

theorem C10_descending_range_ignored_witness :
    segPorts "100-90" = some [] ∧
    parse_ports "80,100-90,22" =
      (collectPorts (["80"] ++ ["22"])).map sortedSet ∧
    ∀ l : List Nat, parse_ports "80,100-90,22" = some l →
      l.Pairwise (· ≤ ·) ∧ l.Nodup := by
  apply C10_descending_range_ignored "80,100-90,22" "100-90" "100" "90"
    100 90 ["80"] ["22"] <;> decide
